import Mathlib

/-!
Verification development for the loot-chest game core (`src/game/game-state.ts`).

The embedding models the chest/loot lifecycle controller: the `Rarity` and
`LootType` enumerations, the `Chest` and `LootItem` records, the procedural
loot generator `generateRandomChest`, the lifecycle operations `nextChest`,
`openChest`, `pickupLootItem`, the pointer handlers `onMouseMove` and
`onMouseClick`, and the curved-path generator `getCurvePathTo`.

Randomness (`Math.random()` draws) is modelled by an explicit choice record
`RandChoices`; each `Math.floor(Math.random() * n)` becomes a supplied natural
number reduced mod `n`.  Three.js `Object3D` clones are modelled by fresh
natural-number identifiers allocated from a counter (`nextId`); the scene, the
outline render state, the cursor style, the started animations and the played
sounds are tracked as explicit fields of `GameState`.  JavaScript exceptions
(calling `.clone()` on an `undefined` model lookup) are modelled with
`Except GenError`.  Pointer rays are modelled as the list of object ids the
ray hits, ordered nearest-first.
-/

set_option autoImplicit false

/-- The rarity enumeration, in the source's declaration order
`COMMON, UNCOMMON, RARE, EPIC, LEGENDARY` (its TS values are color names). -/
inductive Rarity
  | COMMON
  | UNCOMMON
  | RARE
  | EPIC
  | LEGENDARY
deriving DecidableEq, Repr

/-- The loot-type enumeration, in the source's declaration order. -/
inductive LootType
  | WEAPON
  | POTION
  | SHIELD
  | GOLD
deriving DecidableEq, Repr

/-- One loot item: its visual `Object3D` (modelled as a numeric id), its type
and its rarity. -/
structure LootItem where
  object : Nat
  type : LootType
  rarity : Rarity
deriving DecidableEq, Repr

/-- A chest: the `opened` flag, the derived rarity, and the ordered loot list. -/
structure Chest where
  opened : Bool
  rarity : Rarity
  lootItems : List LootItem
deriving DecidableEq, Repr

/-- `Object.values(Rarity)`: the rarities in declaration order. -/
def raritiesList : List Rarity :=
  [.COMMON, .UNCOMMON, .RARE, .EPIC, .LEGENDARY]

/-- The `lootTypes` array built at the top of `generateRandomChest`. -/
def lootTypesList : List LootType :=
  [.GOLD, .POTION, .SHIELD, .WEAPON]

/-- Spec-side ordinal of a rarity in the order
Common < Uncommon < Rare < Epic < Legendary. -/
def rarityOrd : Rarity → Nat
  | .COMMON => 0
  | .UNCOMMON => 1
  | .RARE => 2
  | .EPIC => 3
  | .LEGENDARY => 4

/-- The asset-manager data `generateRandomChest` consumes: `lootMap` (loot type
to list of model names, possibly absent) and the set of loaded model names. -/
structure Env where
  lootMap : LootType → Option (List String)
  models : List String

/-- Explicit random choices: for slot `i`, the draw used for the loot type, the
model name, the texture variant and the rarity.  Each models one
`Math.floor(Math.random() * n)` (reduced mod `n` at use sites). -/
structure RandChoices where
  typeChoice : Nat → Nat
  nameChoice : Nat → Nat
  texChoice : Nat → Nat
  rarityChoice : Nat → Nat

/-- A thrown JavaScript `TypeError` (`models.get(name)` returned `undefined`
and `.clone()` was called on it, or `names[...]` was `undefined`). -/
inductive GenError
  | typeError
deriving DecidableEq, Repr

/-- One iteration of the `randomTypes.map` body in `generateRandomChest`:
pick a model name from the type's pool (falling back to `["coins"]` when the
pool map has no entry), clone its model (a fresh id `startId + i`; a missing
model is a thrown `TypeError`), and draw a random rarity. -/
def genLootItem (env : Env) (rc : RandChoices) (startId i : Nat) (t : LootType) :
    Except GenError LootItem :=
  let names := (env.lootMap t).getD ["coins"]
  if names.length = 0 then .error .typeError
  else
    let name := names.getD (rc.nameChoice i % names.length) ""
    if name ∈ env.models then
      .ok { object := startId + i, type := t,
            rarity := raritiesList.getD (rc.rarityChoice i % raritiesList.length) .COMMON }
    else .error .typeError

/-- `generateRandomChest`: pick 3 random loot types, build the 3 loot items,
then derive the chest rarity as the item rarity with the highest index in
`raritiesList` (the fold mirrors the source's `highestRarityIndex` loop). -/
def generateRandomChest (env : Env) (rc : RandChoices) (startId : Nat) :
    Except GenError Chest := do
  let randomTypes := (List.range 3).map
    (fun i => lootTypesList.getD (rc.typeChoice i % lootTypesList.length) .GOLD)
  let lootItems ← randomTypes.enum.mapM (fun p => genLootItem env rc startId p.1 p.2)
  let highestRarityIndex := lootItems.foldl
    (fun acc item =>
      let index := raritiesList.findIdx (fun r => item.rarity == r)
      if acc < index then index else acc) 0
  let chestRarity := raritiesList.getD highestRarityIndex .COMMON
  return { opened := false, rarity := chestRarity, lootItems := lootItems }

/-- Pointer cursor style (`document.body.style.cursor`). -/
inductive Cursor
  | default
  | pointer
deriving DecidableEq, Repr

/-- A started tween, identified by which animation it is and (for loot) the
animated object id. -/
inductive AnimEvent
  | chestDrop
  | lidOpen
  | lootReveal (obj : Nat)
  | lootScale (obj : Nat)
deriving DecidableEq, Repr

/-- A pointer ray: the ids of the objects the ray intersects, ordered
nearest-first (as `THREE.Raycaster` sorts intersections by distance). -/
abbrev Ray := List Nat

/-- The tracked mutable state of `GameState`: the current chest, the fresh-id
counter for clones, the loot objects currently in the scene, the outline
render state, the cursor style, the last stored pointer ray (`mouseNdc`),
the log of started animations and the log of played sounds. -/
structure GameState where
  currentChest : Option Chest
  nextId : Nat
  scene : List Nat
  outlined : List Nat
  cursor : Cursor
  lastRay : Ray
  anims : List AnimEvent
  soundLog : List String
deriving DecidableEq, Repr

/-- The id of the chest body object (`this.chest`); loot clones get ids ≥ 1. -/
def chestObjId : Nat := 0

/-- The state right after the constructor: no chest, nothing outlined, no loot
in the scene. -/
def initialState : GameState :=
  { currentChest := none, nextId := 1, scene := [], outlined := [],
    cursor := .default, lastRay := ([] : List Nat), anims := [], soundLog := [] }

/-- The object ids of a chest's loot items. -/
def lootIds (c : Chest) : List Nat :=
  c.lootItems.map (fun it => it.object)

/-- `cleanupCurrentChest`: remove any remaining loot objects of the current
chest from the scene and clear `currentChest` (the lid reset is visual-only). -/
def cleanupCurrentChest (s : GameState) : GameState :=
  match s.currentChest with
  | none => { s with currentChest := none }
  | some c =>
      { s with
        currentChest := none,
        scene := c.lootItems.foldl (fun sc it => sc.erase it.object) s.scene }

/-- The body of `nextChest` past its guard: cleanup, then generate; on success
install the new chest and start the drop animation, on a generation exception
the cleanup mutations stay and `currentChest` stays `none`. -/
def nextChestProceed (env : Env) (rc : RandChoices) (s : GameState) : GameState :=
  let s1 := cleanupCurrentChest s
  match generateRandomChest env rc s1.nextId with
  | .error _ => s1
  | .ok ch =>
      { s1 with
        currentChest := some ch,
        nextId := s1.nextId + 3,
        anims := s1.anims ++ [AnimEvent.chestDrop] }

/-- `nextChest`: refuse (silently) while an unopened chest exists, otherwise
replace the current chest with a freshly generated one. -/
def nextChest (env : Env) (rc : RandChoices) (s : GameState) : GameState :=
  match s.currentChest with
  | some c => if c.opened = false then s else nextChestProceed env rc s
  | none => nextChestProceed env rc s

/-- The sound the `switch` at the top of `pickupLootItem` plays per loot type. -/
def pickupSfx : LootType → String
  | .GOLD => "pick-up-gold"
  | .POTION => "pick-up-potion"
  | .SHIELD => "pick-up-shield"
  | .WEAPON => "pick-up-weapon"

/-- `pickupLootItem`: play the sound for the item type, remove the object from
the scene, and splice that index out of the current chest's loot list. -/
def pickupLootItem (item : LootItem) (index : Nat) (s : GameState) : GameState :=
  match s.currentChest with
  | none =>
      { s with soundLog := s.soundLog ++ [pickupSfx item.type],
               scene := s.scene.erase item.object }
  | some c =>
      { s with soundLog := s.soundLog ++ [pickupSfx item.type],
               scene := s.scene.erase item.object,
               currentChest := some { c with lootItems := c.lootItems.eraseIdx index } }

/-- `openChest`: no-op without a chest; otherwise mark the chest opened
immediately, then build the lid/reveal/scale tweens from loot items 0, 1, 2
(a shorter list throws after the `opened` flag is already set), add the loot
objects to the scene and start every animation and the open sound. -/
def openChest (s : GameState) : GameState :=
  match s.currentChest with
  | none => s
  | some c =>
      match c.lootItems[0]?, c.lootItems[1]?, c.lootItems[2]? with
      | some a, some b, some d =>
          { s with
            currentChest := some { c with opened := true },
            scene := s.scene ++ lootIds c,
            anims := s.anims ++
              [AnimEvent.lidOpen,
               AnimEvent.lootReveal a.object, AnimEvent.lootReveal b.object,
               AnimEvent.lootReveal d.object,
               AnimEvent.lootScale a.object, AnimEvent.lootScale b.object,
               AnimEvent.lootScale d.object],
            soundLog := s.soundLog ++ ["chest-open"] }
      | _, _, _ => { s with currentChest := some { c with opened := true } }

/-- `onMouseMove`: no-op without a chest; otherwise store the ray, clear the
outlines and cursor, then hit-test the chest (while unopened) or the remaining
loot items (once opened), outlining the nearest hit. -/
def onMouseMove (ray : Ray) (s : GameState) : GameState :=
  match s.currentChest with
  | none => s
  | some c =>
      if c.opened = false then
        if chestObjId ∈ (ray : List Nat) then
          { s with lastRay := ray, outlined := [chestObjId], cursor := .pointer }
        else
          { s with lastRay := ray, outlined := [], cursor := .default }
      else
        if c.lootItems.isEmpty then
          { s with lastRay := ray, outlined := [], cursor := .default }
        else
          match (ray : List Nat).filter (fun r => (lootIds c).contains r) with
          | [] => { s with lastRay := ray, outlined := [], cursor := .default }
          | hit :: _ =>
              { s with lastRay := ray, outlined := [hit], cursor := .pointer }

/-- `onMouseClick`: re-run the ray test against the stored ray; while no chest
exists or it is unopened, a chest hit triggers `openChest`; once opened, the
first loot item (in stored list order) the ray hits is picked up. -/
def onMouseClick (s : GameState) : GameState :=
  match s.currentChest with
  | none => if chestObjId ∈ (s.lastRay : List Nat) then openChest s else s
  | some c =>
      if c.opened = false then
        if chestObjId ∈ (s.lastRay : List Nat) then openChest s else s
      else
        match c.lootItems.enum.find? (fun p => (s.lastRay : List Nat).contains p.2.object) with
        | some (i, it) => pickupLootItem it i s
        | none => s

/-- The set of object ids the pointer handlers raycast against in a state:
the chest body while no chest exists or it is unopened, the remaining loot
items once it is opened. -/
def hitCandidates (s : GameState) : List Nat :=
  match s.currentChest with
  | none => [chestObjId]
  | some c => if c.opened = false then [chestObjId] else lootIds c

/-- States reachable from `s` by any sequence of next-chest requests and
pointer events. -/
inductive ReachableFrom (env : Env) : GameState → GameState → Prop
  | refl (s : GameState) : ReachableFrom env s s
  | next {s t : GameState} (rc : RandChoices) :
      ReachableFrom env s t → ReachableFrom env s (nextChest env rc t)
  | move {s t : GameState} (ray : Ray) :
      ReachableFrom env s t → ReachableFrom env s (onMouseMove ray t)
  | click {s t : GameState} :
      ReachableFrom env s t → ReachableFrom env s (onMouseClick t)

/-- States reachable from the freshly constructed game. -/
def Reachable (env : Env) (s : GameState) : Prop :=
  ReachableFrom env initialState s

/-- The state invariant: the id counter is positive; loot object ids are
positive, below the counter and pairwise distinct; an opened chest's loot
objects are exactly the scene contents, an unopened chest has no loot in the
scene and exactly 3 loot items; without a chest the scene is empty. -/
def StateInv (s : GameState) : Prop :=
  1 ≤ s.nextId ∧
  match s.currentChest with
  | none => s.scene = []
  | some c =>
      (lootIds c).Nodup ∧
      (∀ r ∈ lootIds c, 1 ≤ r ∧ r < s.nextId) ∧
      (c.opened = true → s.scene = lootIds c) ∧
      (c.opened = false → s.scene = [] ∧ c.lootItems.length = 3)

/-- A `THREE.Vector3` with exact rational coordinates (finite doubles are
rationals; overflow/NaN is modelled by `Option` at the operations that can
produce NaN, namely divisions). -/
structure Vec3 where
  x : ℚ
  y : ℚ
  z : ℚ
deriving DecidableEq, Repr

/-- `Vector3.distanceToSquared`. -/
def distSq (a b : Vec3) : ℚ :=
  (a.x - b.x) * (a.x - b.x) + (a.y - b.y) * (a.y - b.y) + (a.z - b.z) * (a.z - b.z)

/-- Division that records a division by zero (the only NaN/Infinity source in
this code path) as `none`. -/
def safeDiv (a b : ℚ) : Option ℚ :=
  if b = 0 then none else some (a / b)

/-- Coefficients of the `CubicPoly` helper of `THREE.CatmullRomCurve3`. -/
structure CubicCoeffs where
  c0 : ℚ
  c1 : ℚ
  c2 : ℚ
  c3 : ℚ
deriving DecidableEq, Repr

/-- `CubicPoly.initNonuniformCatmullRom` followed by `init`: computes the
cubic's coefficients; each division is checked. -/
def nonuniformCatmullRom (x0 x1 x2 x3 dt0 dt1 dt2 : ℚ) : Option CubicCoeffs := do
  let a1 ← safeDiv (x1 - x0) dt0
  let a2 ← safeDiv (x2 - x0) (dt0 + dt1)
  let a3 ← safeDiv (x2 - x1) dt1
  let b1 ← safeDiv (x2 - x1) dt1
  let b2 ← safeDiv (x3 - x1) (dt1 + dt2)
  let b3 ← safeDiv (x3 - x2) dt2
  let t1 := (a1 - a2 + a3) * dt1
  let t2 := (b1 - b2 + b3) * dt1
  some { c0 := x1, c1 := t1,
         c2 := -3 * x1 + 3 * x2 - 2 * t1 - t2,
         c3 := 2 * x1 - 2 * x2 + t1 + t2 }

/-- `CubicPoly.calc`. -/
def cubicCalc (c : CubicCoeffs) (t : ℚ) : ℚ :=
  c.c0 + c.c1 * t + c.c2 * (t * t) + c.c3 * (t * t * t)

/-- The coordinatewise evaluation step of `CatmullRomCurve3.getPoint`: build
the three cubics and evaluate them at the local weight. -/
def catmullEval (p0 p1 p2 p3 : Vec3) (dt0 dt1 dt2 w : ℚ) : Option Vec3 :=
  match nonuniformCatmullRom p0.x p1.x p2.x p3.x dt0 dt1 dt2,
        nonuniformCatmullRom p0.y p1.y p2.y p3.y dt0 dt1 dt2,
        nonuniformCatmullRom p0.z p1.z p2.z p3.z dt0 dt1 dt2 with
  | some px, some py, some pz =>
      some ⟨cubicCalc px w, cubicCalc py w, cubicCalc pz w⟩
  | _, _, _ => none

/-- `CatmullRomCurve3.getPoint` for the 3-point, non-closed, centripetal curve
`new THREE.CatmullRomCurve3([q0, q1, q2])` that `getCurvePathTo` builds.
`pow025` stands for `x ↦ Math.pow(x, 0.25)` (whose exact value is irrational;
the theorems hold for every such function).  Includes the library's
repeated-point safety clamps on the knot intervals. -/
def catmullRom3Point (pow025 : ℚ → ℚ) (q0 q1 q2 : Vec3) (t : ℚ) : Option Vec3 :=
  let p : ℚ := (3 - 1) * t
  let ip0 : ℤ := ⌊p⌋
  let w0 : ℚ := p - (ip0 : ℚ)
  let ip : ℤ := if w0 = 0 ∧ ip0 = 3 - 1 then 3 - 2 else ip0
  let w : ℚ := if w0 = 0 ∧ ip0 = 3 - 1 then 1 else w0
  let pts : List Vec3 := [q0, q1, q2]
  let pAt : ℤ → Vec3 := fun i => pts.getD (i % 3).toNat q0
  let p0 : Vec3 :=
    if 0 < ip then pAt ((ip - 1) % 3)
    else ⟨q0.x * 2 - q1.x, q0.y * 2 - q1.y, q0.z * 2 - q1.z⟩
  let p1 : Vec3 := pAt (ip % 3)
  let p2 : Vec3 := pAt ((ip + 1) % 3)
  let p3 : Vec3 :=
    if ip + 2 < 3 then pAt ((ip + 2) % 3)
    else ⟨q2.x * 2 - q1.x, q2.y * 2 - q1.y, q2.z * 2 - q1.z⟩
  let dt0r := pow025 (distSq p0 p1)
  let dt1r := pow025 (distSq p1 p2)
  let dt2r := pow025 (distSq p2 p3)
  let dt1 := if dt1r < 1 / 10000 then 1 else dt1r
  let dt0 := if dt0r < 1 / 10000 then dt1 else dt0r
  let dt2 := if dt2r < 1 / 10000 then dt1 else dt2r
  catmullEval p0 p1 p2 p3 dt0 dt1 dt2 w

/-- `curve.getPoints(divisions)`: the `divisions + 1` evaluated points. -/
def catmullRom3Points (pow025 : ℚ → ℚ) (q0 q1 q2 : Vec3) (divisions : Nat) :
    List (Option Vec3) :=
  (List.range (divisions + 1)).map
    (fun (d : Nat) => catmullRom3Point pow025 q0 q1 q2 ((d : ℚ) / (divisions : ℚ)))

/-- `getCurvePathTo`: midpoint of `vfrom`/`vto` raised by 2, then the 10-division
point list of the Catmull-Rom curve through `[vfrom, mid, vto]`. -/
def getCurvePathTo (pow025 : ℚ → ℚ) (vfrom vto : Vec3) : List (Option Vec3) :=
  let mid : Vec3 :=
    ⟨(vto.x - vfrom.x) * (1 / 2) + vfrom.x,
     ((vto.y - vfrom.y) * (1 / 2) + vfrom.y) + 2,
     (vto.z - vfrom.z) * (1 / 2) + vfrom.z⟩
  catmullRom3Points pow025 vfrom mid vto 10

/-- A concrete asset environment: only the gold pool is populated, with the
single model `"coins"` (which is loaded). -/
def env0 : Env :=
  { lootMap := fun t => match t with
      | .GOLD => some ["coins"]
      | _ => none,
    models := ["coins"] }

/-- All random draws are 0. -/
def rc0 : RandChoices :=
  { typeChoice := fun _ => 0, nameChoice := fun _ => 0,
    texChoice := fun _ => 0, rarityChoice := fun _ => 0 }

/-- The chest `generateRandomChest env0 rc0 1` produces: three common gold
coins with object ids 1, 2, 3. -/
def chest0 : Chest :=
  { opened := false, rarity := .COMMON,
    lootItems := [⟨1, .GOLD, .COMMON⟩, ⟨2, .GOLD, .COMMON⟩, ⟨3, .GOLD, .COMMON⟩] }

/-- The state after one successful next-chest request from the initial state. -/
def s1 : GameState := nextChest env0 rc0 initialState

/-- The state after hovering the chest and clicking it: the chest is opened. -/
def sOpen : GameState := onMouseClick (onMouseMove [chestObjId] s1)

/-- The opened chest in `sOpen`. -/
def cOpen : Chest :=
  { opened := true, rarity := .COMMON,
    lootItems := [⟨1, .GOLD, .COMMON⟩, ⟨2, .GOLD, .COMMON⟩, ⟨3, .GOLD, .COMMON⟩] }

/-- Random draws realising the spec's example item rarities
[Common, Legendary, Rare]. -/
def rcC1 : RandChoices :=
  { typeChoice := fun _ => 0, nameChoice := fun _ => 0, texChoice := fun _ => 0,
    rarityChoice := fun i => if i = 0 then 0 else if i = 1 then 4 else 2 }

/-- The chest `generateRandomChest env0 rcC1 1` produces: item rarities
[Common, Legendary, Rare] and chest rarity Legendary. -/
def chestC1 : Chest :=
  { opened := false, rarity := .LEGENDARY,
    lootItems := [⟨1, .GOLD, .COMMON⟩, ⟨2, .GOLD, .LEGENDARY⟩, ⟨3, .GOLD, .RARE⟩] }

/-- An environment with one weapon, one gold and one potion model loaded. -/
def envC9 : Env :=
  { lootMap := fun t => match t with
      | .WEAPON => some ["axe-1"]
      | .GOLD => some ["coins"]
      | .POTION => some ["potion-1"]
      | .SHIELD => none,
    models := ["axe-1", "coins", "potion-1"] }

/-- Random draws realising the spec's example loot
[(Weapon, Rare), (Gold, Common), (Potion, Epic)]. -/
def rcC9 : RandChoices :=
  { typeChoice := fun i => if i = 0 then 3 else if i = 1 then 0 else 1,
    nameChoice := fun _ => 0, texChoice := fun _ => 0,
    rarityChoice := fun i => if i = 0 then 2 else if i = 1 then 0 else 3 }

/-- The state with the spec's example chest generated and opened. -/
def sC9 : GameState := onMouseClick (onMouseMove [chestObjId] (nextChest envC9 rcC9 initialState))

/-- The opened example chest in `sC9`: loot
[(Weapon, Rare), (Gold, Common), (Potion, Epic)], chest rarity Epic. -/
def cC9 : Chest :=
  { opened := true, rarity := .EPIC,
    lootItems := [⟨1, .WEAPON, .RARE⟩, ⟨2, .GOLD, .COMMON⟩, ⟨3, .POTION, .EPIC⟩] }

/-- The Epic potion item of `cC9`. -/
def itC9 : LootItem := ⟨3, .POTION, .EPIC⟩

/-- A completely empty loot pool, with the fallback `"coins"` model loaded. -/
def env4 : Env :=
  { lootMap := fun _ => none, models := ["coins"] }

/-- A completely empty loot pool whose fallback `"coins"` model is missing too. -/
def env4b : Env :=
  { lootMap := fun _ => none, models := [] }

/-- A concrete stand-in for `x ↦ Math.pow(x, 0.25)` (any function works for
the theorems below). -/
def pw0 : ℚ → ℚ := fun _ => 0

/-- The origin. -/
def v0 : Vec3 := ⟨0, 0, 0⟩

deriving instance DecidableEq for Except

/-- Facts about an object id `r` that has been removed: it is below the
fresh-id counter (so no later clone reuses it) and it is not among the current
chest's loot ids. -/
def Removed (r : Nat) (s : GameState) : Prop :=
  r < s.nextId ∧ ∀ c, s.currentChest = some c → r ∉ lootIds c

theorem if_lt_max (a b : Nat) : (if a < b then b else a) = max a b := by
  split <;> omega

theorem map_eraseIdx {α β : Type} (f : α → β) :
    ∀ (l : List α) (i : Nat), (l.eraseIdx i).map f = (l.map f).eraseIdx i := by
  intro l
  induction l with
  | nil => intro i; rfl
  | cons a t ih =>
      intro i
      cases i with
      | zero => rfl
      | succ j => simp [List.eraseIdx_cons_succ, ih j]

theorem erase_eq_eraseIdx_of_nodup (l : List Nat) (i a : Nat)
    (hn : l.Nodup) (h : l[i]? = some a) : l.erase a = l.eraseIdx i := by
  obtain ⟨hlt, ha⟩ := List.getElem?_eq_some_iff.mp h
  subst ha
  exact hn.erase_getElem i hlt

theorem not_mem_eraseIdx_of_nodup (l : List Nat) (i a : Nat)
    (hn : l.Nodup) (h : l[i]? = some a) : a ∉ l.eraseIdx i := by
  rw [← erase_eq_eraseIdx_of_nodup l i a hn h]
  intro hmem
  exact absurd ((hn.mem_erase_iff).mp hmem).1 (by simp)

theorem foldl_erase_self (l : List Nat) (hn : l.Nodup) :
    List.foldl (fun sc x => sc.erase x) l l = [] := by
  induction l with
  | nil => rfl
  | cons a t ih =>
      rw [List.foldl_cons, List.erase_cons_head]
      exact ih (List.nodup_cons.mp hn).2

theorem enum_find?_getElem? {α : Type} (l : List α) (p : Nat × α → Bool) (i : Nat) (a : α)
    (h : l.enum.find? p = some (i, a)) : l[i]? = some a := by
  have hmem : (i, a) ∈ l.enum := List.mem_of_find?_eq_some h
  have hia := List.mem_enum hmem
  exact List.getElem?_eq_some_iff.mpr ⟨hia.1, hia.2.symm⟩

theorem findIdx_rarity (x : Rarity) :
    raritiesList.findIdx (fun r => x == r) = rarityOrd x := by
  cases x <;> rfl

theorem rarityOrd_le_four (x : Rarity) : rarityOrd x ≤ 4 := by
  cases x <;> simp [rarityOrd]

theorem raritiesList_getD_ord (x : Rarity) :
    raritiesList.getD (rarityOrd x) .COMMON = x := by
  cases x <;> rfl

theorem rarityOrd_getD (k : Nat) (hk : k ≤ 4) :
    rarityOrd (raritiesList.getD k .COMMON) = k := by
  interval_cases k <;> rfl

theorem nat_max_eq_or (a b : Nat) : max a b = a ∨ max a b = b := by
  rcases Nat.le_total a b with h | h
  · right; exact Nat.max_eq_right h
  · left; exact Nat.max_eq_left h

theorem genLootItem_ok (env : Env) (rc : RandChoices) (n i : Nat) (t : LootType) (it : LootItem)
    (h : genLootItem env rc n i t = .ok it) :
    it.object = n + i ∧
    it.rarity = raritiesList.getD (rc.rarityChoice i % raritiesList.length) .COMMON := by
  simp only [genLootItem] at h
  split at h
  · cases h
  · split at h
    · simp only [Except.ok.injEq] at h
      subst h
      exact ⟨rfl, rfl⟩
    · cases h

theorem generateRandomChest_ok (env : Env) (rc : RandChoices) (n : Nat) (ch : Chest)
    (h : generateRandomChest env rc n = .ok ch) :
    ch.opened = false ∧
    ∃ a b c : LootItem, ch.lootItems = [a, b, c] ∧
      a.object = n ∧ b.object = n + 1 ∧ c.object = n + 2 ∧
      ch.rarity = raritiesList.getD
        (max (max (rarityOrd a.rarity) (rarityOrd b.rarity)) (rarityOrd c.rarity)) .COMMON := by
  simp only [generateRandomChest, List.range, List.range.loop, List.map, List.enum,
    List.enumFrom, List.mapM_cons, List.mapM_nil, bind, Except.bind, pure, Except.pure] at h
  cases hg0 : genLootItem env rc n 0 (lootTypesList.getD (rc.typeChoice 0 % lootTypesList.length) .GOLD) with
  | error e => rw [hg0] at h; cases h
  | ok a =>
      rw [hg0] at h
      cases hg1 : genLootItem env rc n 1 (lootTypesList.getD (rc.typeChoice 1 % lootTypesList.length) .GOLD) with
      | error e => rw [hg1] at h; cases h
      | ok b =>
          rw [hg1] at h
          cases hg2 : genLootItem env rc n 2 (lootTypesList.getD (rc.typeChoice 2 % lootTypesList.length) .GOLD) with
          | error e => rw [hg2] at h; cases h
          | ok c =>
              rw [hg2] at h
              simp only [Except.ok.injEq] at h
              subst h
              obtain ⟨ha, _⟩ := genLootItem_ok env rc n 0 _ a hg0
              obtain ⟨hb, _⟩ := genLootItem_ok env rc n 1 _ b hg1
              obtain ⟨hc, _⟩ := genLootItem_ok env rc n 2 _ c hg2
              refine ⟨rfl, a, b, c, rfl, by omega, hb, hc, ?_⟩
              simp only [List.foldl_cons, List.foldl_nil, findIdx_rarity, if_lt_max]
              rw [Nat.zero_max]

theorem onMouseMove_fields (ray : Ray) (s : GameState) :
    (onMouseMove ray s).currentChest = s.currentChest ∧
    (onMouseMove ray s).scene = s.scene ∧
    (onMouseMove ray s).nextId = s.nextId := by
  unfold onMouseMove
  split
  · exact ⟨rfl, rfl, rfl⟩
  · split
    · split <;> exact ⟨rfl, rfl, rfl⟩
    · split
      · exact ⟨rfl, rfl, rfl⟩
      · split <;> exact ⟨rfl, rfl, rfl⟩

theorem stateInv_congr (s s' : GameState)
    (h1 : s'.currentChest = s.currentChest) (h2 : s'.scene = s.scene)
    (h3 : s'.nextId = s.nextId) (hI : StateInv s) : StateInv s' := by
  unfold StateInv at *
  rw [h1, h2, h3]
  exact hI

theorem openChest_none (s : GameState) (h : s.currentChest = none) : openChest s = s := by
  unfold openChest
  rw [h]

theorem openChest_chest (s : GameState) (c : Chest) (hc : s.currentChest = some c) :
    (openChest s).currentChest = some { c with opened := true } := by
  unfold openChest
  simp only [hc]
  split <;> rfl

theorem openChest_fields (s : GameState) :
    (openChest s).nextId = s.nextId ∧
    (openChest s).currentChest.map (fun c => c.lootItems) =
      s.currentChest.map (fun c => c.lootItems) := by
  unfold openChest
  split
  · exact ⟨rfl, rfl⟩
  · rename_i c heq
    split <;> exact ⟨rfl, by simp [heq]⟩

theorem length_three_shape {α : Type} (l : List α) (h : l.length = 3) :
    ∃ a b c, l = [a, b, c] := by
  rcases l with _ | ⟨a, _ | ⟨b, _ | ⟨c, _ | ⟨d, t⟩⟩⟩⟩ <;> simp only [List.length] at h
  · omega
  · omega
  · omega
  · exact ⟨a, b, c, rfl⟩
  · omega

theorem openChest_some (s : GameState) (c : Chest) (hc : s.currentChest = some c)
    (a b d : LootItem) (hl : c.lootItems = [a, b, d]) :
    openChest s = { s with
      currentChest := some { c with opened := true },
      scene := s.scene ++ lootIds c,
      anims := s.anims ++
        [AnimEvent.lidOpen,
         AnimEvent.lootReveal a.object, AnimEvent.lootReveal b.object,
         AnimEvent.lootReveal d.object,
         AnimEvent.lootScale a.object, AnimEvent.lootScale b.object,
         AnimEvent.lootScale d.object],
      soundLog := s.soundLog ++ ["chest-open"] } := by
  unfold openChest
  simp only [hc, hl]
  rfl

theorem pickupLootItem_some (item : LootItem) (i : Nat) (s : GameState) (c : Chest)
    (hc : s.currentChest = some c) :
    pickupLootItem item i s = { s with
      currentChest := some { c with lootItems := c.lootItems.eraseIdx i },
      scene := s.scene.erase item.object,
      soundLog := s.soundLog ++ [pickupSfx item.type] } := by
  unfold pickupLootItem
  simp only [hc]

theorem nextChest_noop (env : Env) (rc : RandChoices) (s : GameState) (c : Chest)
    (hc : s.currentChest = some c) (ho : c.opened = false) :
    nextChest env rc s = s := by
  unfold nextChest
  simp only [hc, ho]
  rfl

theorem foldl_erase_objects (l : List LootItem) :
    ∀ sc : List Nat, sc = l.map (fun it => it.object) → sc.Nodup →
      l.foldl (fun acc it => acc.erase it.object) sc = [] := by
  induction l with
  | nil => intro sc h _; subst h; rfl
  | cons a t ih =>
      intro sc h hn
      subst h
      rw [List.map_cons] at hn
      rw [List.map_cons, List.foldl_cons, List.erase_cons_head]
      exact ih _ rfl (List.nodup_cons.mp hn).2

theorem cleanup_eq (s : GameState) (hI : StateInv s)
    (h : s.currentChest = none ∨ ∃ c, s.currentChest = some c ∧ c.opened = true) :
    cleanupCurrentChest s = { s with currentChest := none, scene := [] } := by
  obtain ⟨hn, hmain⟩ := hI
  unfold cleanupCurrentChest
  rcases h with hnone | ⟨c, hc, ho⟩
  · rw [hnone] at hmain
    have hsc : s.scene = [] := hmain
    simp only [hnone, hsc]
  · rw [hc] at hmain
    have hsc : s.scene = lootIds c := hmain.2.2.1 ho
    have hnd : s.scene.Nodup := by rw [hsc]; exact hmain.1
    simp only [hc]
    rw [foldl_erase_objects c.lootItems s.scene (by rw [hsc]; rfl) hnd]

theorem nextChestProceed_inv (env : Env) (rc : RandChoices) (s : GameState) (hI : StateInv s)
    (h : s.currentChest = none ∨ ∃ c, s.currentChest = some c ∧ c.opened = true) :
    StateInv (nextChestProceed env rc s) := by
  have hn : 1 ≤ s.nextId := hI.1
  unfold nextChestProceed
  simp only [cleanup_eq s hI h]
  split
  · exact ⟨hn, rfl⟩
  · rename_i ch heq
    obtain ⟨ho, a, b, d, hitems, ha, hb, hd, -⟩ := generateRandomChest_ok env rc _ ch heq
    refine ⟨show 1 ≤ s.nextId + 3 by omega, ?_, ?_, ?_, ?_⟩
    · show (lootIds ch).Nodup
      simp only [lootIds, hitems, List.map_cons, List.map_nil, ha, hb, hd]
      simp [List.nodup_cons]
    · intro r hr
      simp only [lootIds, hitems, List.map_cons, List.map_nil, ha, hb, hd] at hr
      simp only [List.mem_cons, List.not_mem_nil, or_false] at hr
      show 1 ≤ r ∧ r < s.nextId + 3
      rcases hr with rfl | rfl | rfl <;> omega
    · intro hop
      rw [ho] at hop
      exact Bool.noConfusion hop
    · intro _
      exact ⟨rfl, by simp [hitems]⟩

theorem nextChest_inv (env : Env) (rc : RandChoices) (s : GameState) (hI : StateInv s) :
    StateInv (nextChest env rc s) := by
  unfold nextChest
  split
  · rename_i c heq
    split
    · exact hI
    · rename_i hop
      exact nextChestProceed_inv env rc s hI (Or.inr ⟨c, heq, by simpa using hop⟩)
  · rename_i heq
    exact nextChestProceed_inv env rc s hI (Or.inl heq)

theorem onMouseMove_inv (ray : Ray) (s : GameState) (hI : StateInv s) :
    StateInv (onMouseMove ray s) := by
  obtain ⟨h1, h2, h3⟩ := onMouseMove_fields ray s
  exact stateInv_congr s _ h1 h2 h3 hI

theorem openChest_inv (s : GameState) (c : Chest) (hc : s.currentChest = some c)
    (ho : c.opened = false) (hI : StateInv s) : StateInv (openChest s) := by
  have hmain := hI.2
  rw [hc] at hmain
  obtain ⟨hnd, hb, -, hunop⟩ := hmain
  obtain ⟨hsc, hlen⟩ := hunop ho
  obtain ⟨a, b, d, hitems⟩ := length_three_shape c.lootItems hlen
  rw [openChest_some s c hc a b d hitems]
  refine ⟨hI.1, hnd, ?_, ?_, ?_⟩
  · intro r hr
    exact hb r hr
  · intro _
    show s.scene ++ lootIds c = lootIds c
    rw [hsc]
    rfl
  · intro hf
    exact absurd (show true = false from hf) (by decide)

theorem pickup_inv (s : GameState) (c : Chest) (i : Nat) (it : LootItem)
    (hc : s.currentChest = some c) (ho : c.opened = true)
    (hget : c.lootItems[i]? = some it) (hI : StateInv s) :
    StateInv (pickupLootItem it i s) := by
  have hmain := hI.2
  rw [hc] at hmain
  obtain ⟨hnd, hb, hop, -⟩ := hmain
  have hsc : s.scene = lootIds c := hop ho
  have hobj : (lootIds c)[i]? = some it.object := by
    simp [lootIds, List.getElem?_map, hget]
  rw [pickupLootItem_some it i s c hc]
  refine ⟨hI.1, ?_, ?_, ?_, ?_⟩
  · show ((c.lootItems.eraseIdx i).map (fun x => x.object)).Nodup
    rw [map_eraseIdx]
    exact (List.eraseIdx_sublist _ i).nodup hnd
  · intro r hr
    apply hb
    have h' : r ∈ (c.lootItems.eraseIdx i).map (fun x => x.object) := hr
    rw [map_eraseIdx] at h'
    exact (List.eraseIdx_sublist _ i).subset h'
  · intro _
    show s.scene.erase it.object = _
    rw [hsc, erase_eq_eraseIdx_of_nodup (lootIds c) i it.object hnd hobj]
    show (lootIds c).eraseIdx i = (c.lootItems.eraseIdx i).map (fun x => x.object)
    rw [map_eraseIdx]
    rfl
  · intro hf
    have hff : c.opened = false := hf
    rw [ho] at hff
    exact Bool.noConfusion hff

theorem onMouseClick_inv (s : GameState) (hI : StateInv s) : StateInv (onMouseClick s) := by
  unfold onMouseClick
  split
  · rename_i heq
    split
    · rw [openChest_none s heq]; exact hI
    · exact hI
  · rename_i c heq
    split
    · rename_i ho
      split
      · exact openChest_inv s c heq ho hI
      · exact hI
    · rename_i hop
      split
      · rename_i p i it hfind
        have hget := enum_find?_getElem? c.lootItems _ i it hfind
        exact pickup_inv s c i it heq (by simpa using hop) hget hI
      · exact hI

theorem stateInv_initial : StateInv initialState :=
  ⟨Nat.le_refl 1, rfl⟩

theorem reachableFrom_inv (env : Env) (s t : GameState) (hI : StateInv s)
    (h : ReachableFrom env s t) : StateInv t := by
  induction h with
  | refl => exact hI
  | next rc _ ih => exact nextChest_inv env _ _ ih
  | move ray _ ih => exact onMouseMove_inv ray _ ih
  | click _ ih => exact onMouseClick_inv _ ih

theorem reachable_inv (env : Env) (s : GameState) (h : Reachable env s) : StateInv s :=
  reachableFrom_inv env initialState s stateInv_initial h

theorem cleanup_fields (s : GameState) :
    (cleanupCurrentChest s).currentChest = none ∧
    (cleanupCurrentChest s).nextId = s.nextId := by
  unfold cleanupCurrentChest
  split <;> exact ⟨rfl, rfl⟩

theorem removed_nextChestProceed (env : Env) (rc : RandChoices) (s : GameState) (r : Nat)
    (h : Removed r s) : Removed r (nextChestProceed env rc s) := by
  obtain ⟨hlt, hnot⟩ := h
  obtain ⟨hcc, hcn⟩ := cleanup_fields s
  simp only [nextChestProceed]
  split
  · exact ⟨by omega, fun c hc => absurd (hcc ▸ hc) (by simp)⟩
  · rename_i ch heq
    obtain ⟨ho, a, b, d, hitems, ha, hb, hd, -⟩ := generateRandomChest_ok env rc _ ch heq
    constructor
    · show r < (cleanupCurrentChest s).nextId + 3
      omega
    · intro c hc
      have hcc' : ch = c := by injection hc
      subst hcc'
      simp only [lootIds, hitems, List.map_cons, List.map_nil, ha, hb, hd]
      intro hmem
      simp only [List.mem_cons, List.not_mem_nil, or_false] at hmem
      rcases hmem with rfl | rfl | rfl <;> omega

theorem removed_nextChest (env : Env) (rc : RandChoices) (s : GameState) (r : Nat)
    (h : Removed r s) : Removed r (nextChest env rc s) := by
  unfold nextChest
  split
  · split
    · exact h
    · exact removed_nextChestProceed env rc s r h
  · exact removed_nextChestProceed env rc s r h

theorem removed_move (ray : Ray) (s : GameState) (r : Nat)
    (h : Removed r s) : Removed r (onMouseMove ray s) := by
  obtain ⟨h1, -, h3⟩ := onMouseMove_fields ray s
  refine ⟨by rw [h3]; exact h.1, fun c hc => h.2 c ?_⟩
  rw [← h1]
  exact hc

theorem removed_openChest (s : GameState) (r : Nat)
    (h : Removed r s) : Removed r (openChest s) := by
  cases heq : s.currentChest with
  | none => rw [openChest_none s heq]; exact h
  | some c =>
      refine ⟨by rw [(openChest_fields s).1]; exact h.1, fun c' hc' => ?_⟩
      rw [openChest_chest s c heq] at hc'
      have hcc : ({ c with opened := true } : Chest) = c' := by injection hc'
      subst hcc
      exact h.2 c heq

theorem removed_click (s : GameState) (r : Nat)
    (h : Removed r s) : Removed r (onMouseClick s) := by
  unfold onMouseClick
  split
  · split
    · exact removed_openChest s r h
    · exact h
  · rename_i c heq
    split
    · split
      · exact removed_openChest s r h
      · exact h
    · split
      · rename_i p i it hfind
        rw [pickupLootItem_some it i s c heq]
        refine ⟨h.1, fun c' hc' => ?_⟩
        have hcc : ({ c with lootItems := c.lootItems.eraseIdx i } : Chest) = c' := by
          injection hc'
        subst hcc
        intro hmem
        have h' : r ∈ (c.lootItems.eraseIdx i).map (fun x => x.object) := hmem
        rw [map_eraseIdx] at h'
        exact h.2 c heq ((List.eraseIdx_sublist _ i).subset h')
      · exact h

theorem removed_reachableFrom (env : Env) (s t : GameState) (r : Nat)
    (h : Removed r s) (hr : ReachableFrom env s t) : Removed r t := by
  induction hr with
  | refl => exact h
  | next rc _ ih => exact removed_nextChest env rc _ r ih
  | move ray _ ih => exact removed_move ray _ r ih
  | click _ ih => exact removed_click _ r ih

theorem removed_not_candidate (r : Nat) (t : GameState) (hpos : 1 ≤ r)
    (h : Removed r t) : r ∉ hitCandidates t := by
  unfold hitCandidates
  split
  · intro hmem
    simp [chestObjId] at hmem
    omega
  · rename_i c heq
    split
    · intro hmem
      simp [chestObjId] at hmem
      omega
    · exact h.2 c heq

theorem nextChestProceed_chest_unopened (env : Env) (rc : RandChoices) (s : GameState) (c : Chest)
    (h : (nextChestProceed env rc s).currentChest = some c) : c.opened = false := by
  simp only [nextChestProceed] at h
  split at h
  · rw [(cleanup_fields s).1] at h
    cases h
  · rename_i ch heq
    have hcc : ch = c := by injection h
    subst hcc
    exact (generateRandomChest_ok env rc _ ch heq).1

theorem nextChest_chest_unopened (env : Env) (rc : RandChoices) (s : GameState) (c : Chest)
    (h : (nextChest env rc s).currentChest = some c) : c.opened = false := by
  unfold nextChest at h
  split at h
  · rename_i c0 heq
    split at h
    · rename_i ho
      rw [heq] at h
      have hcc : c0 = c := by injection h
      subst hcc
      exact ho
    · exact nextChestProceed_chest_unopened env rc s c h
  · exact nextChestProceed_chest_unopened env rc s c h

theorem nonuniformCatmullRom_isSome (x0 x1 x2 x3 dt0 dt1 dt2 : ℚ)
    (h0 : 0 < dt0) (h1 : 0 < dt1) (h2 : 0 < dt2) :
    (nonuniformCatmullRom x0 x1 x2 x3 dt0 dt1 dt2).isSome = true := by
  have h01 : dt0 + dt1 ≠ 0 := (add_pos h0 h1).ne'
  have h12 : dt1 + dt2 ≠ 0 := (add_pos h1 h2).ne'
  simp [nonuniformCatmullRom, safeDiv, h0.ne', h1.ne', h2.ne', h01, h12]

theorem catmullEval_isSome (p0 p1 p2 p3 : Vec3) (dt0 dt1 dt2 w : ℚ)
    (h0 : 0 < dt0) (h1 : 0 < dt1) (h2 : 0 < dt2) :
    (catmullEval p0 p1 p2 p3 dt0 dt1 dt2 w).isSome = true := by
  unfold catmullEval
  obtain ⟨cx, hx⟩ := Option.isSome_iff_exists.mp
    (nonuniformCatmullRom_isSome p0.x p1.x p2.x p3.x dt0 dt1 dt2 h0 h1 h2)
  obtain ⟨cy, hy⟩ := Option.isSome_iff_exists.mp
    (nonuniformCatmullRom_isSome p0.y p1.y p2.y p3.y dt0 dt1 dt2 h0 h1 h2)
  obtain ⟨cz, hz⟩ := Option.isSome_iff_exists.mp
    (nonuniformCatmullRom_isSome p0.z p1.z p2.z p3.z dt0 dt1 dt2 h0 h1 h2)
  rw [hx, hy, hz]
  rfl

theorem clamp1_pos (d : ℚ) : 0 < if d < 1 / 10000 then 1 else d := by
  split
  · norm_num
  · rename_i hge
    have h := le_of_not_lt hge
    linarith

theorem clamp_pos (d e : ℚ) (he : 0 < e) : 0 < if d < 1 / 10000 then e else d := by
  split
  · exact he
  · rename_i hge
    have h := le_of_not_lt hge
    linarith

theorem catmullRom3Point_isSome (pow025 : ℚ → ℚ) (q0 q1 q2 : Vec3) (t : ℚ) :
    (catmullRom3Point pow025 q0 q1 q2 t).isSome = true := by
  unfold catmullRom3Point
  apply catmullEval_isSome
  · exact clamp_pos _ _ (clamp1_pos _)
  · exact clamp1_pos _
  · exact clamp_pos _ _ (clamp1_pos _)

/-- C1: for every generated chest, the chest's rarity field equals the
maximum-ordinal rarity (in the order Common < Uncommon < Rare < Epic <
Legendary) among the rarities of its contained loot items: the maximum of the
item-rarity ordinals is the ordinal of the chest rarity, and the chest rarity
is attained by one of the items. -/
theorem c1_chest_rarity_is_max (env : Env) (rc : RandChoices) (n : Nat) (ch : Chest)
    (h : generateRandomChest env rc n = .ok ch) :
    (ch.lootItems.map (fun it => rarityOrd it.rarity)).max? = some (rarityOrd ch.rarity) ∧
    ch.rarity ∈ ch.lootItems.map (fun it => it.rarity) := by
  obtain ⟨-, a, b, d, hitems, -, -, -, hrar⟩ := generateRandomChest_ok env rc n ch h
  rw [hitems, hrar]
  have la := rarityOrd_le_four a.rarity
  have lb := rarityOrd_le_four b.rarity
  have ld := rarityOrd_le_four d.rarity
  constructor
  · rw [rarityOrd_getD _ (by omega)]
    rfl
  · rcases nat_max_eq_or (max (rarityOrd a.rarity) (rarityOrd b.rarity)) (rarityOrd d.rarity)
      with hm | hm
    · rcases nat_max_eq_or (rarityOrd a.rarity) (rarityOrd b.rarity) with hm2 | hm2
      · rw [hm, hm2, raritiesList_getD_ord]; simp
      · rw [hm, hm2, raritiesList_getD_ord]; simp
    · rw [hm, raritiesList_getD_ord]; simp

/-- C1 witness: the spec's example, item rarities [Common, Legendary, Rare]
give chest rarity Legendary. -/
theorem c1_witness :
    generateRandomChest env0 rcC1 1 = .ok chestC1 ∧
    chestC1.rarity = Rarity.LEGENDARY ∧
    (chestC1.lootItems.map (fun it => rarityOrd it.rarity)).max?
        = some (rarityOrd chestC1.rarity) ∧
    chestC1.rarity ∈ chestC1.lootItems.map (fun it => it.rarity) := by
  have h : generateRandomChest env0 rcC1 1 = .ok chestC1 := by decide
  exact ⟨h, rfl, c1_chest_rarity_is_max env0 rcC1 1 chestC1 h⟩

/-- C2: while an unopened current chest exists, `nextChest` is a silent no-op
(the whole state is unchanged); in particular, after any `nextChest` call
produced a chest, an immediately following `nextChest` call with no user
interaction in between changes nothing, so the first call's loot list stays
intact. -/
theorem c2_next_chest_guard (env : Env) (rc rc2 : RandChoices) (s : GameState) :
    (∀ c, s.currentChest = some c → c.opened = false → nextChest env rc s = s) ∧
    (∀ c, (nextChest env rc s).currentChest = some c →
      nextChest env rc2 (nextChest env rc s) = nextChest env rc s) := by
  constructor
  · exact fun c hc ho => nextChest_noop env rc s c hc ho
  · intro c hc
    exact nextChest_noop env rc2 _ c hc (nextChest_chest_unopened env rc s c hc)

/-- C2 witness: a second `nextChest` right after a successful one is a no-op. -/
theorem c2_witness :
    s1.currentChest = some chest0 ∧ chest0.opened = false ∧
    nextChest env0 rc0 s1 = s1 := by
  have h := (c2_next_chest_guard env0 rc0 rc0 initialState).2 chest0 (by decide)
  exact ⟨by decide, by decide, h⟩

/-- C3 counterexample: with a pool offering exactly one item overall
(`lootMap` maps GOLD to the single name "coins" and nothing else), generation
still succeeds with a 3-item loot list; nothing is clamped to the 1 available
item. -/
theorem c3_counterexample :
    env0.lootMap LootType.GOLD = some ["coins"] ∧
    env0.lootMap LootType.POTION = none ∧
    env0.lootMap LootType.SHIELD = none ∧
    env0.lootMap LootType.WEAPON = none ∧
    Except.map (fun ch => ch.lootItems.length) (generateRandomChest env0 rc0 1)
      = .ok 3 ∧
    Except.map (fun ch => ch.lootItems.length) (generateRandomChest env0 rc0 1)
      ≠ .ok 1 := by
  exact ⟨rfl, rfl, rfl, rfl, by decide, by decide⟩

/-- C3 (amended): every successfully generated chest has a loot list of length
exactly 3, regardless of how many distinct items the pool offers (empty
category pools fall back to the default coins item, and the same item can be
cloned repeatedly); the length is never more and never fewer than 3. -/
theorem c3_loot_length_three (env : Env) (rc : RandChoices) (n : Nat) (ch : Chest)
    (h : generateRandomChest env rc n = .ok ch) : ch.lootItems.length = 3 := by
  obtain ⟨-, a, b, d, hitems, -⟩ := generateRandomChest_ok env rc n ch h
  rw [hitems]
  rfl

/-- C3 witness: a concrete generation with a 1-item pool has length 3. -/
theorem c3_witness :
    generateRandomChest env0 rc0 1 = .ok chest0 ∧ chest0.lootItems.length = 3 := by
  have h : generateRandomChest env0 rc0 1 = .ok chest0 := by decide
  exact ⟨h, c3_loot_length_three env0 rc0 1 chest0 h⟩

/-- C4 counterexample: with a completely empty loot pool (every category
unmapped) but the fallback "coins" model loaded, generation does not fail at
all: it produces a chest (of three default coins items). -/
theorem c4_counterexample :
    env4.lootMap LootType.WEAPON = none ∧
    env4.lootMap LootType.POTION = none ∧
    env4.lootMap LootType.SHIELD = none ∧
    env4.lootMap LootType.GOLD = none ∧
    generateRandomChest env4 rc0 1 = .ok chest0 := by
  exact ⟨rfl, rfl, rfl, rfl, by decide⟩

/-- C4 (amended): there is no explicit "no loot available" condition.  With a
completely empty loot pool, each slot falls back to the default "coins" item:
if that model is loaded, generation succeeds and produces a chest; only if
even the fallback model is missing does generation fail, and then with a
generic thrown `TypeError`, not a distinguishable "no loot available"
signal. -/
theorem c4_empty_pool_fallback (env : Env) (rc : RandChoices) (n : Nat)
    (hempty : ∀ t, env.lootMap t = none) :
    ("coins" ∈ env.models → (generateRandomChest env rc n).isOk = true) ∧
    ("coins" ∉ env.models → generateRandomChest env rc n = .error .typeError) := by
  have hgl : ∀ i t, genLootItem env rc n i t =
      if "coins" ∈ env.models then
        .ok { object := n + i, type := t,
              rarity := raritiesList.getD (rc.rarityChoice i % raritiesList.length) .COMMON }
      else .error .typeError := by
    intro i t
    simp [genLootItem, hempty t, Nat.mod_one]
  constructor
  · intro hm
    simp only [generateRandomChest, List.range, List.range.loop, List.map, List.enum,
      List.enumFrom, List.mapM_cons, List.mapM_nil, bind, Except.bind, pure, Except.pure,
      hgl, if_pos hm]
    rfl
  · intro hm
    simp only [generateRandomChest, List.range, List.range.loop, List.map, List.enum,
      List.enumFrom, List.mapM_cons, List.mapM_nil, bind, Except.bind, pure, Except.pure,
      hgl, if_neg hm]

/-- C4 witness: concrete empty pools, with and without the fallback model. -/
theorem c4_witness :
    (generateRandomChest env4 rc0 1).isOk = true ∧
    generateRandomChest env4b rc0 1 = .error .typeError := by
  exact ⟨(c4_empty_pool_fallback env4 rc0 1 (fun t => rfl)).1 (by decide),
         (c4_empty_pool_fallback env4b rc0 1 (fun t => rfl)).2 (by decide)⟩

/-- C5: in any reachable state with an opened current chest, picking up the
loot item at index `i` removes exactly that item from the loot list (the rest
of the list is untouched and the length drops by exactly 1), removes its
object from the scene, and that object is excluded from the hit-test candidate
set of every subsequent pointer event. -/
theorem c5_pickup_removes_item (env : Env) (s : GameState) (hr : Reachable env s)
    (c : Chest) (hc : s.currentChest = some c) (ho : c.opened = true)
    (i : Nat) (item : LootItem) (hi : c.lootItems[i]? = some item) :
    (pickupLootItem item i s).currentChest
        = some { c with lootItems := c.lootItems.eraseIdx i } ∧
    (c.lootItems.eraseIdx i).length + 1 = c.lootItems.length ∧
    item.object ∉ (pickupLootItem item i s).scene ∧
    (∀ t, ReachableFrom env (pickupLootItem item i s) t →
      item.object ∉ hitCandidates t) := by
  have hI := reachable_inv env s hr
  have hmain := hI.2
  rw [hc] at hmain
  obtain ⟨hnd, hb, hop, -⟩ := hmain
  have hsc : s.scene = lootIds c := hop ho
  have hobj : (lootIds c)[i]? = some item.object := by
    simp [lootIds, List.getElem?_map, hi]
  have hmem : item.object ∈ lootIds c := by
    obtain ⟨hlt, he⟩ := List.getElem?_eq_some_iff.mp hobj
    exact he ▸ List.getElem_mem hlt
  have hpos : 1 ≤ item.object := (hb _ hmem).1
  have hltn : item.object < s.nextId := (hb _ hmem).2
  have hilen : i < c.lootItems.length := by
    obtain ⟨hlt, -⟩ := List.getElem?_eq_some_iff.mp hi
    exact hlt
  refine ⟨?_, ?_, ?_, ?_⟩
  · rw [pickupLootItem_some item i s c hc]
  · rw [List.length_eraseIdx, if_pos hilen]
    omega
  · rw [pickupLootItem_some item i s c hc]
    show item.object ∉ s.scene.erase item.object
    rw [hsc]
    intro hmm
    exact absurd ((hnd.mem_erase_iff).mp hmm).1 (by simp)
  · intro t ht
    apply removed_not_candidate _ _ hpos
    apply removed_reachableFrom env _ t _ _ ht
    rw [pickupLootItem_some item i s c hc]
    constructor
    · exact hltn
    · intro c' hc'
      have hcc : ({ c with lootItems := c.lootItems.eraseIdx i } : Chest) = c' := by
        injection hc'
      subst hcc
      intro hmm
      have h' : item.object ∈ (c.lootItems.eraseIdx i).map (fun x => x.object) := hmm
      rw [map_eraseIdx] at h'
      exact not_mem_eraseIdx_of_nodup (lootIds c) i item.object hnd hobj h'

/-- C5 witness: picking up the first coin of the opened example chest. -/
theorem c5_witness :
    (pickupLootItem (⟨1, .GOLD, .COMMON⟩ : LootItem) 0 sOpen).currentChest
        = some { cOpen with lootItems := cOpen.lootItems.eraseIdx 0 } ∧
    (1 : Nat) ∉ (pickupLootItem (⟨1, .GOLD, .COMMON⟩ : LootItem) 0 sOpen).scene := by
  have hreach : Reachable env0 sOpen :=
    ReachableFrom.click (ReachableFrom.move [chestObjId]
      (ReachableFrom.next rc0 (ReachableFrom.refl initialState)))
  have h := c5_pickup_removes_item env0 sOpen hreach cOpen (by decide) (by decide)
    0 (⟨1, .GOLD, .COMMON⟩ : LootItem) (by decide)
  exact ⟨h.1, h.2.2.1⟩

/-- C6: the open transition sets the `opened` flag synchronously (the state
right after `openChest` already has it), and a later click on a chest whose
flag is already set starts no lid or reveal animation (the animation log is
unchanged by the click) and, when the click ray hits no loot item, leaves the
whole state unchanged. -/
theorem c6_open_idempotent (s : GameState) (c : Chest) (hc : s.currentChest = some c) :
    (openChest s).currentChest = some { c with opened := true } ∧
    (c.opened = true → (onMouseClick s).anims = s.anims) ∧
    (c.opened = true → (∀ it ∈ c.lootItems, it.object ∉ s.lastRay) →
      onMouseClick s = s) := by
  refine ⟨openChest_chest s c hc, ?_, ?_⟩
  · intro ho
    unfold onMouseClick
    simp only [hc, ho]
    rw [if_neg (by decide : ¬(true = false))]
    split
    · rename_i i it hfind
      rw [pickupLootItem_some it i s c hc]
    · rfl
  · intro ho hno
    unfold onMouseClick
    simp only [hc, ho]
    rw [if_neg (by decide : ¬(true = false))]
    have hfind : c.lootItems.enum.find? (fun p => (s.lastRay).contains p.2.object) = none := by
      rw [List.find?_eq_none]
      intro p hp
      obtain ⟨i, it⟩ := p
      obtain ⟨hlt, hpe⟩ := List.mem_enum hp
      have hmem : it ∈ c.lootItems := hpe ▸ List.getElem_mem hlt
      simp only [List.contains, Bool.not_eq_true]
      rw [Bool.eq_false_iff]
      intro helem
      exact hno it hmem (List.elem_iff.mp helem)
    rw [hfind]

/-- C6 witness: clicking the already-opened example chest changes nothing. -/
theorem c6_witness :
    (openChest sOpen).currentChest = some { cOpen with opened := true } ∧
    onMouseClick sOpen = sOpen := by
  have h := c6_open_idempotent sOpen cOpen (by decide)
  exact ⟨h.1, h.2.2 (by decide) (by decide)⟩

/-- C7 counterexample: the curved-path generator is not special-cased for
coincident endpoints; `getCurvePathTo P P` does not return the two-point path
`[P, P]` (it returns 11 curve points). -/
theorem c7_counterexample :
    getCurvePathTo pw0 v0 v0 ≠ [some v0, some v0] := by
  intro h
  have hl := congrArg List.length h
  simp only [getCurvePathTo, catmullRom3Points, List.length_map, List.length_range,
    List.length_cons, List.length_nil] at hl
  omega

/-- C7 (amended): for coincident endpoints the generator returns the 11
evaluated points of the centripetal Catmull-Rom curve through the raised
midpoint — not `[from, to]` — and every evaluated point is well defined: no
division by zero (the NaN source) can occur, whatever value the fourth-root
`Math.pow(·, 0.25)` takes, thanks to the library's repeated-point clamps. -/
theorem c7_degenerate_path_defined (pow025 : ℚ → ℚ) (p : Vec3) :
    (getCurvePathTo pow025 p p).length = 11 ∧
    (getCurvePathTo pow025 p p).all Option.isSome = true := by
  constructor
  · simp only [getCurvePathTo, catmullRom3Points, List.length_map, List.length_range]
  · simp only [getCurvePathTo, catmullRom3Points, List.all_eq_true]
    intro q hq
    simp only [List.mem_map] at hq
    obtain ⟨d, -, rfl⟩ := hq
    exact catmullRom3Point_isSome pow025 _ _ _ _

/-- C8: while no current chest exists, both pointer handlers are no-ops: the
state is completely unchanged (no outline, cursor, chest or loot effect). -/
theorem c8_no_chest_noop (ray : Ray) (s : GameState) (h : s.currentChest = none) :
    onMouseMove ray s = s ∧ onMouseClick s = s := by
  constructor
  · unfold onMouseMove
    simp only [h]
  · unfold onMouseClick
    simp only [h]
    split
    · exact openChest_none s h
    · rfl

/-- C8 witness: pointer events on the initial state change nothing. -/
theorem c8_witness :
    onMouseMove [chestObjId] initialState = initialState ∧
    onMouseClick initialState = initialState :=
  c8_no_chest_noop [chestObjId] initialState rfl

/-- C9: a pickup never recomputes the chest's rarity field: whatever item is
picked at whatever index, the rarity after `pickupLootItem` is exactly the
rarity fixed at generation time. -/
theorem c9_rarity_not_recomputed (s : GameState) (c : Chest) (item : LootItem) (i : Nat)
    (hc : s.currentChest = some c) :
    (pickupLootItem item i s).currentChest.map (fun ch => ch.rarity) = some c.rarity := by
  rw [pickupLootItem_some item i s c hc]
  rfl

/-- C9 witness: the spec's example — loot [(Weapon, Rare), (Gold, Common),
(Potion, Epic)] gives chest rarity Epic, and picking up the Epic potion leaves
the chest's rarity field Epic. -/
theorem c9_witness :
    sC9.currentChest = some cC9 ∧ cC9.rarity = Rarity.EPIC ∧
    (pickupLootItem itC9 2 sC9).currentChest.map (fun ch => ch.rarity)
      = some Rarity.EPIC := by
  have h := c9_rarity_not_recomputed sC9 cC9 itC9 2 (by decide)
  exact ⟨by decide, rfl, h⟩

/-- C10: in every reachable state, an unopened current chest has exactly 3
loot items, so the open transition's direct accesses to loot items at indices
0, 1 and 2 are always in bounds. -/
theorem c10_unopened_has_three (env : Env) (s : GameState) (hr : Reachable env s)
    (c : Chest) (hc : s.currentChest = some c) (ho : c.opened = false) :
    c.lootItems.length = 3 ∧
    (c.lootItems[0]?).isSome = true ∧
    (c.lootItems[1]?).isSome = true ∧
    (c.lootItems[2]?).isSome = true := by
  have hI := reachable_inv env s hr
  have hmain := hI.2
  rw [hc] at hmain
  have hlen : c.lootItems.length = 3 := (hmain.2.2.2 ho).2
  obtain ⟨a, b, d, hitems⟩ := length_three_shape c.lootItems hlen
  refine ⟨hlen, ?_, ?_, ?_⟩ <;> rw [hitems] <;> rfl

/-- C10 witness: the freshly generated example chest is unopened with exactly
3 loot items. -/
theorem c10_witness :
    s1.currentChest = some chest0 ∧ chest0.opened = false ∧
    chest0.lootItems.length = 3 := by
  have hr : Reachable env0 s1 :=
    ReachableFrom.next rc0 (ReachableFrom.refl initialState)
  have h := c10_unopened_has_three env0 s1 hr chest0 (by decide) (by decide)
  exact ⟨by decide, by decide, h.1⟩
